import Mathlib

/-!
# Verification of lekko-setup-action

A shallow embedding of the lekko-setup GitHub action (TypeScript sources
`src/lekko.ts` and `src/run.ts`, plus an older two-argument variant of the
fetch module) together with proofs of the specification's claims.

Strings are embedded as `List Char` (the TypeScript code only ever uses
literal construction, concatenation, `length`, `slice`, `indexOf`-as-prefix
and equality, all of which are faithfully represented on character lists).
Network responses, the tool cache, the filesystem and the PATH resolver are
modelled as components of an explicit `World`; each operation returns its
result together with the list of observable side effects it performed, in
order.
-/

/-- Strings are embedded as lists of characters. -/
abbrev Str := List Char

/-- Embed a Lean string literal into the `List Char` representation. -/
def str (s : String) : Str := s.toList

/-- The error shape used throughout the action (`src/error.ts` is not part of
the sources; the spec describes all failures as "a single error kind carrying
a human-readable message", which both `lekko.ts` and `run.ts` construct as
object literals `{ message: ... }`). -/
structure Err where
  message : Str
deriving DecidableEq, Repr

/-- A JavaScript value thrown as an exception. `errorShaped` is a thrown value
that the `isError` guard recognises (it carries a `message`); `other` is any
other thrown value. -/
inductive Thrown where
  | errorShaped (message : Str)
  | other
deriving DecidableEq, Repr

/-- Modelled from the spec: `error.ts` (the `isError` guard) is not under
`src/`. The spec says all failure modes are "a single error kind carrying a
human-readable message"; `isError` recognises exactly thrown values of that
shape, and we expose the message it extracts. -/
def isErrorThrown : Thrown → Option Str
  | .errorShaped m => some m
  | .other => none

/-- Result of running a piece of the action: a normal return value, a returned
`Err` value (the `T | Error` union used by `lekko.ts`), or a JavaScript
exception escaping the function. -/
inductive Res (α : Type) where
  | ok (a : α)
  | err (e : Err)
  | thrown (t : Thrown)
deriving DecidableEq, Repr

/-- `versionPrefix` from `lekko.ts`: used in GitHub release names, optionally
present in the action's version parameter. -/
def versionPrefix : Str := str "v"

/-- `releaseTagForVersion` from `lekko.ts`: returns the release tag for a
version configuration. `version.indexOf(versionPrefix) === 0` is the check
that `versionPrefix` occurs at position 0, i.e. is a prefix. -/
def releaseTagForVersion (version : Str) : Str :=
  if versionPrefix <+: version then version
  else versionPrefix ++ version

/-- The architecture arm of the `switch (os.arch())` in `getDownloadURL`:
"x64" and "arm64" map to fixed tokens, anything else is an error naming the
raw value. -/
def resolveArchToken (arch : Str) : Except Err Str :=
  if arch = str "x64" then .ok (str "x86_64")
  else if arch = str "arm64" then .ok (str "arm64")
  else .error ⟨str "The \"" ++ arch ++ str "\" architecture is not supported with a Lekko release."⟩

/-- The platform arm of the `switch (os.platform())` in `getDownloadURL`:
"linux" and "darwin" map to fixed tokens, anything else is an error naming the
raw value. -/
def resolvePlatformToken (platform : Str) : Except Err Str :=
  if platform = str "linux" then .ok (str "Linux")
  else if platform = str "darwin" then .ok (str "Darwin")
  else .error ⟨str "The \"" ++ platform ++ str "\" platform is not supported with a Lekko release."⟩

/-- The platform-resolution prefix of `getDownloadURL`: the architecture
switch runs first, then the platform switch; the first unsupported value
aborts with its error. -/
def resolvePlatform (arch platform : Str) : Except Err (Str × Str) :=
  match resolveArchToken arch with
  | .error e => .error e
  | .ok architecture =>
    match resolvePlatformToken platform with
    | .error e => .error e
    | .ok p => .ok (architecture, p)

/-- `resolveArchToken` on an unsupported architecture returns the error naming
the raw value. -/
theorem resolveArchToken_unsupported (a : Str) (h1 : a ≠ str "x64") (h2 : a ≠ str "arm64") :
    resolveArchToken a =
      .error ⟨str "The \"" ++ a ++ str "\" architecture is not supported with a Lekko release."⟩ := by
  unfold resolveArchToken
  rw [if_neg h1, if_neg h2]

/-- `resolvePlatformToken` on an unsupported platform returns the error naming
the raw value. -/
theorem resolvePlatformToken_unsupported (p : Str) (h1 : p ≠ str "linux") (h2 : p ≠ str "darwin") :
    resolvePlatformToken p =
      .error ⟨str "The \"" ++ p ++ str "\" platform is not supported with a Lekko release."⟩ := by
  unfold resolvePlatformToken
  rw [if_neg h1, if_neg h2]

/-- **C1.** For every architecture/OS input pair, platform resolution succeeds
exactly when the architecture is "x64" or "arm64" and the OS is "linux" or
"darwin", yielding the fixed tokens x64→"x86_64", arm64→"arm64",
linux→"Linux", darwin→"Darwin"; an unsupported architecture yields an error
whose message contains the raw architecture value, and a supported
architecture with an unsupported OS yields an error whose message contains
the raw OS value (the architecture switch runs first, so its error takes
precedence). -/
theorem platform_resolution_table (a p : Str) :
    ((a = str "x64" ∨ a = str "arm64") → (p = str "linux" ∨ p = str "darwin") →
      ∃ t u, resolvePlatform a p = Except.ok (t, u)
        ∧ ((a = str "x64" ∧ t = str "x86_64") ∨ (a = str "arm64" ∧ t = str "arm64"))
        ∧ ((p = str "linux" ∧ u = str "Linux") ∨ (p = str "darwin" ∧ u = str "Darwin")))
    ∧ (∀ t u, resolvePlatform a p = Except.ok (t, u) →
        (a = str "x64" ∨ a = str "arm64") ∧ (p = str "linux" ∨ p = str "darwin"))
    ∧ (¬(a = str "x64" ∨ a = str "arm64") →
        ∃ e, resolvePlatform a p = Except.error e ∧ a <:+: e.message)
    ∧ ((a = str "x64" ∨ a = str "arm64") → ¬(p = str "linux" ∨ p = str "darwin") →
        ∃ e, resolvePlatform a p = Except.error e ∧ p <:+: e.message) := by
  refine ⟨?_, ?_, ?_, ?_⟩
  · rintro (ha | ha) (hp | hp) <;> subst ha <;> subst hp
    · exact ⟨str "x86_64", str "Linux", rfl, Or.inl ⟨rfl, rfl⟩, Or.inl ⟨rfl, rfl⟩⟩
    · exact ⟨str "x86_64", str "Darwin", rfl, Or.inl ⟨rfl, rfl⟩, Or.inr ⟨rfl, rfl⟩⟩
    · exact ⟨str "arm64", str "Linux", rfl, Or.inr ⟨rfl, rfl⟩, Or.inl ⟨rfl, rfl⟩⟩
    · exact ⟨str "arm64", str "Darwin", rfl, Or.inr ⟨rfl, rfl⟩, Or.inr ⟨rfl, rfl⟩⟩
  · intro t u h
    by_cases hx : a = str "x64" <;> by_cases ha : a = str "arm64" <;>
      by_cases hl : p = str "linux" <;> by_cases hd : p = str "darwin" <;>
      simp_all [resolvePlatform, resolveArchToken, resolvePlatformToken]
  · intro h
    push_neg at h
    refine ⟨⟨str "The \"" ++ a ++ str "\" architecture is not supported with a Lekko release."⟩, ?_, ?_⟩
    · unfold resolvePlatform
      rw [resolveArchToken_unsupported a h.1 h.2]
    · exact ⟨str "The \"", str "\" architecture is not supported with a Lekko release.", rfl⟩
  · intro ha hp
    push_neg at hp
    obtain ⟨t, harch⟩ : ∃ t, resolveArchToken a = .ok t := by
      rcases ha with h | h <;> subst h <;> exact ⟨_, rfl⟩
    refine ⟨⟨str "The \"" ++ p ++ str "\" platform is not supported with a Lekko release."⟩, ?_, ?_⟩
    · unfold resolvePlatform
      rw [harch, resolvePlatformToken_unsupported p hp.1 hp.2]
    · exact ⟨str "The \"", str "\" platform is not supported with a Lekko release.", rfl⟩

/-- Witness for C1 at concrete inputs: architecture "mips" is unsupported and
is named in the error message; so is an unsupported platform "win32" under a
supported architecture. -/
theorem platform_resolution_table_witness :
    (∃ e, resolvePlatform (str "mips") (str "linux") = Except.error e ∧ (str "mips") <:+: e.message)
    ∧ (∃ e, resolvePlatform (str "x64") (str "win32") = Except.error e ∧ (str "win32") <:+: e.message) :=
  ⟨(platform_resolution_table (str "mips") (str "linux")).2.2.1 (by decide),
   (platform_resolution_table (str "x64") (str "win32")).2.2.2 (by decide) (by decide)⟩

/-- **C5.** `releaseTagForVersion` leaves a version starting with "v"
unchanged, prepends "v" otherwise, and is idempotent. -/
theorem releaseTagForVersion_spec (x : Str) :
    ((versionPrefix <+: x → releaseTagForVersion x = x)
      ∧ (¬ versionPrefix <+: x → releaseTagForVersion x = versionPrefix ++ x))
    ∧ releaseTagForVersion (releaseTagForVersion x) = releaseTagForVersion x := by
  refine ⟨⟨fun h => ?_, fun h => ?_⟩, ?_⟩
  · simp [releaseTagForVersion, h]
  · simp [releaseTagForVersion, h]
  · by_cases h : versionPrefix <+: x
    · simp [releaseTagForVersion, h]
    · have h2 : versionPrefix <+: (versionPrefix ++ x) := ⟨x, rfl⟩
      simp [releaseTagForVersion, h, h2]

/-- Witness for C5 at concrete inputs "0.2.15" (no prefix) and "v1.2.3"
(already prefixed). -/
theorem releaseTagForVersion_spec_witness :
    releaseTagForVersion (str "0.2.15") = versionPrefix ++ str "0.2.15"
    ∧ releaseTagForVersion (str "v1.2.3") = str "v1.2.3" :=
  ⟨((releaseTagForVersion_spec (str "0.2.15")).1.2 (by decide)),
   ((releaseTagForVersion_spec (str "v1.2.3")).1.1 (by decide))⟩

/-- A release asset as returned by the registry: a record with `{name, url}`. -/
structure Asset where
  name : Str
  url : Str
deriving DecidableEq, Repr

/-- A release as returned by the registry: its list of assets. -/
structure Release where
  assets : List Asset
deriving DecidableEq, Repr

/-- The remote release registry. `listReleases n` is the JSON body answering
`GET /repos/lekkodev/cli/releases` with `per_page = n`; `releaseByTag t` is
the body answering `GET /repos/lekkodev/cli/releases/tags/{t}`. (A failing
by-tag request would throw inside the HTTP client; no claim exercises that
path, so it is modelled as a successful response.) -/
structure Registry where
  listReleases : Nat → List Release
  releaseByTag : Str → Release

/-- The host machine as reported by `os.arch()` and `os.platform()`. -/
structure Host where
  arch : Str
  platform : Str

/-- A token-exchange HTTP response: `ok` is `resp.ok` (2xx status),
`statusText` the status text, and `token` the optional `token` field of the
JSON body. -/
structure HttpResp where
  ok : Bool
  statusText : Str
  token : Option Str

/-- An observable side effect performed by the action, with the data it sends
out: the token exchange carries the apikey header; registry queries carry the
auth token and the `per_page` / tag parameter; the artifact download carries
the URL and the credential used to authenticate it. -/
inductive Effect where
  | tokenExchange (apikey : Str)
  | registryList (token : Str) (perPage : Nat)
  | registryByTag (token : Str) (tag : Str)
  | download (url : Str) (auth : Str)
  | extract (downloadPath : Str)
  | cacheWrite (srcDir tool version arch : Str)
  | addPath (dir : Str)
  | exec (cmd : Str)
deriving DecidableEq, Repr

/-- True exactly on token-exchange effects. -/
def Effect.isTokenExchange : Effect → Bool
  | .tokenExchange _ => true
  | _ => false

/-- The environment a run executes against: the host, the tool cache
(`tc.find`, keyed by tool/version/arch, "" on a miss), the token-exchange
endpoint (apikey ↦ response), the release registry, the downloader and
extractor (`tc.downloadTool` / `tc.extractTar` as url ↦ path maps), the cache
writer (`tc.cacheDir`) and the PATH resolver (`io.which`, "" when the binary
is not found). -/
structure World where
  host : Host
  cacheFind : Str → Str → Str → Str
  tokenExchange : Str → HttpResp
  reg : Registry
  downloadTool : Str → Str
  extractTar : Str → Str
  cacheDirFn : Str → Str → Str → Str → Str
  which : Str → Str

/-- The message of the TypeError thrown by the JavaScript runtime when
`releases[0].assets` is evaluated on an empty `releases` array (`releases[0]`
is `undefined`, and reading `.assets` from `undefined` throws). -/
def undefinedAssetsMsg : Str := str "Cannot read properties of undefined (reading 'assets')"

/-- `getDownloadURL` from `src/lekko.ts`: resolves the architecture and
platform tokens, builds the expected asset name, then either scans the first
release of the release-list response (version "latest") or the release for
the normalized tag, returning the URL of the asset whose name matches
exactly. Paired with the list of requests it issued. -/
def getDownloadURL (version githubToken : Str) (host : Host) (reg : Registry) :
    Res Str × List Effect :=
  match resolveArchToken host.arch with
  | .error e => (.err e, [])
  | .ok architecture =>
    match resolvePlatformToken host.platform with
    | .error e => (.err e, [])
    | .ok platform =>
      let assetName := str "lekko_" ++ platform ++ str "_" ++ architecture ++ str ".tar.gz"
      if version = str "latest" then
        match reg.listReleases 1 with
        | [] => (.thrown (.errorShaped undefinedAssetsMsg), [.registryList githubToken 1])
        | r :: _ =>
          match r.assets.find? (fun asset => asset.name == assetName) with
          | some asset => (.ok asset.url, [.registryList githubToken 1])
          | none =>
            (.err ⟨str "Unable to find latest Lekko version for platform \"" ++ platform
                ++ str "\" and architecture \"" ++ architecture ++ str "\"."⟩,
             [.registryList githubToken 1])
      else
        let tag := releaseTagForVersion version
        match (reg.releaseByTag tag).assets.find? (fun asset => asset.name == assetName) with
        | some asset => (.ok asset.url, [.registryByTag githubToken tag])
        | none =>
          (.err ⟨str "Unable to find Lekko version \"" ++ version ++ str "\" for platform \""
              ++ platform ++ str "\" and architecture \"" ++ architecture ++ str "\"."⟩,
           [.registryByTag githubToken tag])

/-- `getGithubToken` from `src/lekko.ts`: POSTs to the token-exchange endpoint
with the apikey header; a non-2xx response is an error carrying the status
text, a missing or empty `token` field is an error, otherwise the token is
returned. -/
def getGithubToken (apikey : Str) (w : World) : Res Str × List Effect :=
  let resp := w.tokenExchange apikey
  if !resp.ok then
    (.err ⟨str "Error getting developer access token: " ++ resp.statusText⟩,
     [.tokenExchange apikey])
  else
    match resp.token with
    | none => (.err ⟨str "No token found in response"⟩, [.tokenExchange apikey])
    | some t =>
      if t.length = 0 then (.err ⟨str "No token found in response"⟩, [.tokenExchange apikey])
      else (.ok t, [.tokenExchange apikey])

/-- `getLekko` from `src/lekko.ts` (the three-argument variant with apikey
support): cache lookup first; on a miss, exchange the apikey for a token when
one is supplied (reassigning `githubToken`), resolve the download URL,
download with the bearer credential, extract, and populate the cache. -/
def getLekko (version apikey githubToken : Str) (w : World) : Res Str × List Effect :=
  let binaryPath := w.cacheFind (str "lekko") version w.host.arch
  if binaryPath ≠ [] then (.ok binaryPath, [])
  else
    let cred : Res Str × List Effect :=
      if apikey.length > 0 then getGithubToken apikey w
      else (.ok githubToken, [])
    match cred with
    | (.err e, fx) => (.err e, fx)
    | (.thrown t, fx) => (.thrown t, fx)
    | (.ok token, fx) =>
      match getDownloadURL version token w.host w.reg with
      | (.err e, fx2) => (.err e, fx ++ fx2)
      | (.thrown t, fx2) => (.thrown t, fx ++ fx2)
      | (.ok url, fx2) =>
        let downloadPath := w.downloadTool url
        let extractPath := w.extractTar downloadPath
        let cacheDir := w.cacheDirFn extractPath (str "lekko") version w.host.arch
        (.ok cacheDir,
         fx ++ fx2 ++ [.download url token, .extract downloadPath,
           .cacheWrite extractPath (str "lekko") version w.host.arch])

/-- A fixed world used to instantiate theorems at concrete inputs. -/
def w0 : World where
  host := ⟨str "x64", str "linux"⟩
  cacheFind := fun _ _ _ => str "/cache/lekko/1.0.0/x64"
  tokenExchange := fun _ => ⟨true, [], some (str "tok")⟩
  reg := ⟨fun _ => [⟨[⟨str "lekko_Linux_x86_64.tar.gz", str "https://api.github.com/asset/1"⟩]⟩],
          fun _ => ⟨[]⟩⟩
  downloadTool := fun _ => str "/tmp/dl"
  extractTar := fun _ => str "/tmp/ex"
  cacheDirFn := fun _ _ _ _ => str "/cache/dir"
  which := fun _ => str "/cache/dir/bin/lekko"

/-- **C3.** On a tool-cache hit (non-empty `tc.find` result for
("lekko", version, host arch)), `getLekko` returns the cached path unchanged
with an empty effect trace: no token exchange, no registry query, no
download, no extraction and no cache write happen. -/
theorem getLekko_cache_hit (version apikey githubToken : Str) (w : World)
    (h : w.cacheFind (str "lekko") version w.host.arch ≠ []) :
    getLekko version apikey githubToken w =
      (.ok (w.cacheFind (str "lekko") version w.host.arch), ([] : List Effect)) := by
  unfold getLekko
  simp [h]

/-- Witness for C3: in the fixed world `w0` the cache holds an entry, and
`getLekko` returns it with no effects. -/
theorem getLekko_cache_hit_witness :
    getLekko (str "1.0.0") [] (str "T") w0 =
      (.ok (str "/cache/lekko/1.0.0/x64"), ([] : List Effect)) :=
  getLekko_cache_hit (str "1.0.0") [] (str "T") w0 (by decide)

/-- The request trace of `getDownloadURL` is empty (platform error), a single
release-list query with `per_page = 1`, or a single by-tag query for the
normalized tag — always carrying the supplied token. -/
theorem getDownloadURL_trace (version tok : Str) (host : Host) (reg : Registry) :
    (getDownloadURL version tok host reg).2 = []
    ∨ (getDownloadURL version tok host reg).2 = [Effect.registryList tok 1]
    ∨ (getDownloadURL version tok host reg).2
        = [Effect.registryByTag tok (releaseTagForVersion version)] := by
  unfold getDownloadURL
  split
  · simp
  · split
    · simp
    · by_cases hv : version = str "latest"
      · rw [if_pos hv]
        split
        · simp
        · split <;> simp
      · rw [if_neg hv]
        dsimp only
        split <;> simp

/-- **C2.** With version "latest" and a host whose architecture/platform
resolve to tokens archTok/osTok, `getDownloadURL` issues exactly one
release-list query with page size 1, scans the assets of the first returned
release for a name exactly equal to `lekko_<osTok>_<archTok>.tar.gz`, returns
the matching asset's URL, and when no asset name matches exactly it returns
an error whose message contains both tokens. -/
theorem latest_asset_resolution (githubToken : Str) (host : Host) (reg : Registry)
    (archTok osTok : Str)
    (ha : resolveArchToken host.arch = Except.ok archTok)
    (hp : resolvePlatformToken host.platform = Except.ok osTok)
    (r : Release) (rest : List Release)
    (hr : reg.listReleases 1 = r :: rest) :
    ((getDownloadURL (str "latest") githubToken host reg).2 = [Effect.registryList githubToken 1])
    ∧ ((∃ a ∈ r.assets, a.name = str "lekko_" ++ osTok ++ str "_" ++ archTok ++ str ".tar.gz") →
        ∃ a ∈ r.assets, a.name = str "lekko_" ++ osTok ++ str "_" ++ archTok ++ str ".tar.gz"
          ∧ (getDownloadURL (str "latest") githubToken host reg).1 = Res.ok a.url)
    ∧ ((∀ a ∈ r.assets, a.name ≠ str "lekko_" ++ osTok ++ str "_" ++ archTok ++ str ".tar.gz") →
        ∃ e, (getDownloadURL (str "latest") githubToken host reg).1 = Res.err e
          ∧ osTok <:+: e.message ∧ archTok <:+: e.message) := by
  have key : getDownloadURL (str "latest") githubToken host reg =
      (match r.assets.find? (fun asset =>
          asset.name == str "lekko_" ++ osTok ++ str "_" ++ archTok ++ str ".tar.gz") with
        | some asset => (Res.ok asset.url, [Effect.registryList githubToken 1])
        | none => (Res.err ⟨str "Unable to find latest Lekko version for platform \"" ++ osTok
              ++ str "\" and architecture \"" ++ archTok ++ str "\"."⟩,
            [Effect.registryList githubToken 1])) := by
    unfold getDownloadURL
    rw [ha]
    dsimp only
    rw [hp]
    dsimp only
    rw [if_pos rfl, hr]
  refine ⟨?_, ?_, ?_⟩
  · rw [key]
    split <;> rfl
  · rintro ⟨a, hmem, hname⟩
    cases hfind : r.assets.find? (fun asset =>
        asset.name == str "lekko_" ++ osTok ++ str "_" ++ archTok ++ str ".tar.gz") with
    | none =>
      exact absurd (by simpa using hname) (by simpa using List.find?_eq_none.mp hfind a hmem)
    | some asset =>
      refine ⟨asset, List.mem_of_find?_eq_some hfind, ?_, ?_⟩
      · simpa using List.find?_some hfind
      · rw [key, hfind]
  · intro h
    have hfind : r.assets.find? (fun asset =>
        asset.name == str "lekko_" ++ osTok ++ str "_" ++ archTok ++ str ".tar.gz") = none := by
      rw [List.find?_eq_none]
      intro a hmem
      simpa using h a hmem
    refine ⟨⟨str "Unable to find latest Lekko version for platform \"" ++ osTok
        ++ str "\" and architecture \"" ++ archTok ++ str "\"."⟩, ?_, ?_, ?_⟩
    · rw [key, hfind]
    · exact ⟨str "Unable to find latest Lekko version for platform \"",
        str "\" and architecture \"" ++ archTok ++ str "\".", by simp⟩
    · exact ⟨str "Unable to find latest Lekko version for platform \"" ++ osTok
        ++ str "\" and architecture \"", str "\".", by simp⟩

/-- Witness for C2: in the fixed world `w0` (Linux/x64 host, single release
whose sole asset is named exactly `lekko_Linux_x86_64.tar.gz`), the locator
returns that asset's URL. -/
theorem latest_asset_resolution_witness :
    ∃ a ∈ (Release.mk [⟨str "lekko_Linux_x86_64.tar.gz", str "https://api.github.com/asset/1"⟩]).assets,
      a.name = str "lekko_" ++ str "Linux" ++ str "_" ++ str "x86_64" ++ str ".tar.gz"
      ∧ (getDownloadURL (str "latest") (str "T") ⟨str "x64", str "linux"⟩ w0.reg).1 = Res.ok a.url :=
  (latest_asset_resolution (str "T") ⟨str "x64", str "linux"⟩ w0.reg (str "x86_64") (str "Linux")
      rfl rfl ⟨[⟨str "lekko_Linux_x86_64.tar.gz", str "https://api.github.com/asset/1"⟩]⟩ []
      rfl).2.1 (by decide)

/-- `getGithubToken` always performs exactly the single token-exchange
request, whatever the response. -/
theorem getGithubToken_trace (apikey : Str) (w : World) :
    (getGithubToken apikey w).2 = [Effect.tokenExchange apikey] := by
  unfold getGithubToken
  dsimp only
  split
  · rfl
  · split
    · rfl
    · split <;> rfl

/-- On a cache miss, `getLekko` is credential resolution followed by URL
resolution followed by download/extract/cache. -/
theorem getLekko_cache_miss (version apikey githubToken : Str) (w : World)
    (hmiss : w.cacheFind (str "lekko") version w.host.arch = []) :
    getLekko version apikey githubToken w =
      (match (if apikey.length > 0 then getGithubToken apikey w
              else (Res.ok githubToken, ([] : List Effect))) with
       | (.err e, fx) => (.err e, fx)
       | (.thrown t, fx) => (.thrown t, fx)
       | (.ok token, fx) =>
         match getDownloadURL version token w.host w.reg with
         | (.err e, fx2) => (.err e, fx ++ fx2)
         | (.thrown t, fx2) => (.thrown t, fx ++ fx2)
         | (.ok url, fx2) =>
           (.ok (w.cacheDirFn (w.extractTar (w.downloadTool url)) (str "lekko") version w.host.arch),
            fx ++ fx2 ++ [.download url token, .extract (w.downloadTool url),
              .cacheWrite (w.extractTar (w.downloadTool url)) (str "lekko") version w.host.arch])) := by
  unfold getLekko
  rw [hmiss]
  simp

/-- **C4.** On a cache miss: with a non-empty apikey exactly one
token-exchange request is made with that apikey; a non-success response makes
`getLekko` return the error carrying the status text, and a missing or empty
token field makes it return the no-token error — in both cases with the
exchange as the only effect, so no registry query and no download happened.
With an empty apikey no exchange happens and every registry query and
download in the run carries the fallback github token unchanged. -/
theorem credential_resolution (version apikey githubToken : Str) (w : World)
    (hmiss : w.cacheFind (str "lekko") version w.host.arch = []) :
    (apikey ≠ [] →
      (¬(w.tokenExchange apikey).ok = true →
        getLekko version apikey githubToken w =
          (Res.err ⟨str "Error getting developer access token: "
              ++ (w.tokenExchange apikey).statusText⟩, [Effect.tokenExchange apikey]))
      ∧ ((w.tokenExchange apikey).ok = true →
        ((w.tokenExchange apikey).token = none ∨ (w.tokenExchange apikey).token = some []) →
        getLekko version apikey githubToken w =
          (Res.err ⟨str "No token found in response"⟩, [Effect.tokenExchange apikey]))
      ∧ (getLekko version apikey githubToken w).2.countP Effect.isTokenExchange = 1)
    ∧ (apikey = [] →
      (∀ k, Effect.tokenExchange k ∉ (getLekko version apikey githubToken w).2)
      ∧ (∀ t n, Effect.registryList t n ∈ (getLekko version apikey githubToken w).2 →
          t = githubToken)
      ∧ (∀ t g, Effect.registryByTag t g ∈ (getLekko version apikey githubToken w).2 →
          t = githubToken)
      ∧ (∀ u t, Effect.download u t ∈ (getLekko version apikey githubToken w).2 →
          t = githubToken)) := by
  rw [getLekko_cache_miss version apikey githubToken w hmiss]
  constructor
  · intro hk
    rw [if_pos (List.length_pos.mpr hk)]
    refine ⟨?_, ?_, ?_⟩
    · intro hno
      have hg : getGithubToken apikey w =
          (Res.err ⟨str "Error getting developer access token: "
            ++ (w.tokenExchange apikey).statusText⟩, [Effect.tokenExchange apikey]) := by
        unfold getGithubToken
        simp [hno]
      rw [hg]
    · intro hok htok
      have hg : getGithubToken apikey w =
          (Res.err ⟨str "No token found in response"⟩, [Effect.tokenExchange apikey]) := by
        unfold getGithubToken
        rcases htok with h | h <;> simp [h, hok]
      rw [hg]
    · have hfx := getGithubToken_trace apikey w
      rcases hg : getGithubToken apikey w with ⟨res, fx⟩
      rw [hg] at hfx
      dsimp only at hfx
      subst hfx
      cases res with
      | err e => simp [Effect.isTokenExchange]
      | thrown t => simp [Effect.isTokenExchange]
      | ok token =>
        have htr := getDownloadURL_trace version token w.host w.reg
        rcases hd : getDownloadURL version token w.host w.reg with ⟨res2, fx2⟩
        rw [hd] at htr
        dsimp only at htr
        dsimp only
        rw [hd]
        cases res2 <;> rcases htr with h | h | h <;> subst h <;>
          simp [Effect.isTokenExchange]
  · intro hk
    subst hk
    rw [if_neg (by simp)]
    dsimp only
    have htr := getDownloadURL_trace version githubToken w.host w.reg
    rcases hd : getDownloadURL version githubToken w.host w.reg with ⟨res2, fx2⟩
    rw [hd] at htr
    dsimp only at htr
    cases res2 <;> rcases htr with h | h | h <;> subst h <;>
      refine ⟨by simp, ?_, ?_, ?_⟩ <;> intro x y hmem <;> simp_all

/-- A fixed world with an empty tool cache and a token-exchange endpoint that
answers 401 Unauthorized, used to instantiate theorems at concrete inputs. -/
def w1 : World where
  host := ⟨str "x64", str "linux"⟩
  cacheFind := fun _ _ _ => []
  tokenExchange := fun _ => ⟨false, str "Unauthorized", none⟩
  reg := ⟨fun _ => [⟨[⟨str "lekko_Linux_x86_64.tar.gz", str "https://api.github.com/asset/1"⟩]⟩],
          fun _ => ⟨[]⟩⟩
  downloadTool := fun _ => str "/tmp/dl"
  extractTar := fun _ => str "/tmp/ex"
  cacheDirFn := fun _ _ _ _ => str "/cache/dir"
  which := fun _ => str "/cache/dir/bin/lekko"

/-- Witness for C4: in `w1` (cache miss, failing exchange), `getLekko` with a
non-empty apikey returns the status-text error after the single exchange
request and nothing else. -/
theorem credential_resolution_witness :
    getLekko (str "1.0.0") (str "k") (str "T") w1 =
      (Res.err ⟨str "Error getting developer access token: "
          ++ (w1.tokenExchange (str "k")).statusText⟩,
       [Effect.tokenExchange (str "k")]) :=
  (((credential_resolution (str "1.0.0") (str "k") (str "T") w1 rfl).1 (by decide)).1 (by decide))

/-- `path.join(a, b)` on the POSIX hosts this code path runs on (the join is
only executed on non-Windows platforms). -/
def joinPath (a b : Str) : Str := a ++ str "/" ++ b

/-- Decimal rendering of a natural number, as a JavaScript template literal
prints the numeric `length` field. -/
def natRepr (n : Nat) : Str :=
  if h : n < 10 then [Char.ofNat (48 + n)]
  else natRepr (n / 10) ++ [Char.ofNat (48 + n % 10)]
decreasing_by
  exact Nat.div_lt_self (by omega) (by omega)

/-- Parse a digit string back to a number (used to show `natRepr` is
injective). -/
def unrepr (l : Str) : Nat := l.foldl (fun a c => 10 * a + (c.toNat - 48)) 0

/-- `getDownloadURL` from the older two-argument fetch module: identical
resolution logic, but the "latest" branch reuses the versioned error message
(with the literal version string "latest" interpolated). -/
def getDownloadURL2 (version githubToken : Str) (host : Host) (reg : Registry) :
    Res Str × List Effect :=
  match resolveArchToken host.arch with
  | .error e => (.err e, [])
  | .ok architecture =>
    match resolvePlatformToken host.platform with
    | .error e => (.err e, [])
    | .ok platform =>
      let assetName := str "lekko_" ++ platform ++ str "_" ++ architecture ++ str ".tar.gz"
      if version = str "latest" then
        match reg.listReleases 1 with
        | [] => (.thrown (.errorShaped undefinedAssetsMsg), [.registryList githubToken 1])
        | r :: _ =>
          match r.assets.find? (fun asset => asset.name == assetName) with
          | some asset => (.ok asset.url, [.registryList githubToken 1])
          | none =>
            (.err ⟨str "Unable to find Lekko version \"" ++ version ++ str "\" for platform \""
                ++ platform ++ str "\" and architecture \"" ++ architecture ++ str "\"."⟩,
             [.registryList githubToken 1])
      else
        let tag := releaseTagForVersion version
        match (reg.releaseByTag tag).assets.find? (fun asset => asset.name == assetName) with
        | some asset => (.ok asset.url, [.registryByTag githubToken tag])
        | none =>
          (.err ⟨str "Unable to find Lekko version \"" ++ version ++ str "\" for platform \""
              ++ platform ++ str "\" and architecture \"" ++ architecture ++ str "\"."⟩,
           [.registryByTag githubToken tag])

/-- `getLekko` from the older two-argument fetch module: cache lookup, URL
resolution, download authenticated directly with the github token, extraction
and cache write of the extracted `lekko` subdirectory. Returns the result,
the effect trace, and the `core.info` log lines in order — including the
download line that interpolates the token's length and first five characters
(`githubToken.length` and `githubToken.slice(0, 5)`). -/
def getLekko2 (version githubToken : Str) (w : World) :
    Res Str × List Effect × List Str :=
  let binaryPath := w.cacheFind (str "lekko") version w.host.arch
  if binaryPath ≠ [] then
    (.ok binaryPath, [], [str "Found in cache @ " ++ binaryPath])
  else
    match getDownloadURL2 version githubToken w.host w.reg with
    | (.err e, fx) => (.err e, fx, [str "Resolving the download URL for the current platform..."])
    | (.thrown t, fx) => (.thrown t, fx, [str "Resolving the download URL for the current platform..."])
    | (.ok url, fx) =>
      let downloadPath := w.downloadTool url
      let extractPath := w.extractTar downloadPath
      let cacheDir := w.cacheDirFn (joinPath extractPath (str "lekko")) (str "lekko") version w.host.arch
      (.ok cacheDir,
       fx ++ [.download url githubToken, .extract downloadPath,
         .cacheWrite (joinPath extractPath (str "lekko")) (str "lekko") version w.host.arch],
       [str "Resolving the download URL for the current platform...",
        str "Downloading lekko version \"" ++ version ++ str "\" from " ++ url
          ++ str " using token of length " ++ natRepr githubToken.length ++ str ": "
          ++ githubToken.take 5,
        str "Successfully downloaded lekko version \"" ++ version ++ str "\" from " ++ url,
        str "Extracting lekko...",
        str "Successfully extracted lekko to " ++ extractPath,
        str "Adding lekko to the cache...",
        str "Successfully cached lekko to " ++ cacheDir])

/-- The action's inputs as read by `core.getInput`. The `apikey` input is
declared by the newer action variant; the `runSetup` in `src/run.ts` reads
only `version` and `github_token`. -/
structure Inputs where
  version : Str
  githubToken : Str
  apikey : Str

/-- The run's terminal outcome: success, or failure with the message passed
to `core.setFailed`. -/
inductive RunOutcome where
  | success
  | failed (message : Str)
deriving DecidableEq, Repr

/-- `runSetup` from `src/run.ts`: validates the version and github_token
inputs, fetches the tool, adds the binary directory to the PATH (the install
root on win32, the `bin` subdirectory elsewhere), resolves `lekko` on the
PATH, and prints its version. -/
def runSetup (inp : Inputs) (w : World) : Res Unit × List Effect :=
  if inp.version = [] then (.err ⟨str "a version was not provided"⟩, [])
  else if inp.githubToken = [] then
    (.err ⟨str "No github_token supplied, won't be able to download lekko"⟩, [])
  else
    match getLekko2 inp.version inp.githubToken w with
    | (.err e, fx, _) => (.err e, fx)
    | (.thrown t, fx, _) => (.thrown t, fx)
    | (.ok installDir, fx, _) =>
      let binDir := if w.host.platform = str "win32" then installDir
                    else joinPath installDir (str "bin")
      let binaryPath := w.which (str "lekko")
      if binaryPath = [] then
        (.err ⟨str "lekko was not found on PATH"⟩, fx ++ [.addPath binDir])
      else
        (.ok (), fx ++ [.addPath binDir, .exec (binaryPath ++ str " --version")])

/-- `run` from `src/run.ts`: runs the setup, marks the run failed on a
returned error, and catches any thrown value — reporting its message when the
`isError` guard recognises it and the fixed message "Internal error"
otherwise. -/
def run (inp : Inputs) (w : World) : RunOutcome :=
  match (runSetup inp w).1 with
  | .ok _ => .success
  | .err e => .failed e.message
  | .thrown t =>
    match isErrorThrown t with
    | some m => .failed m
    | none => .failed (str "Internal error")

/-- Counterexample to C6: a run with a non-empty apikey input and an empty
github_token input still fails with the missing-credential configuration
error, before any fetch effect — `runSetup` in `src/run.ts` reads no apikey
input and checks `github_token` unconditionally. -/
theorem githubToken_required_counterexample :
    (Inputs.mk (str "1.0.0") [] (str "k")).apikey ≠ []
    ∧ runSetup (Inputs.mk (str "1.0.0") [] (str "k")) w1 =
        (Res.err ⟨str "No github_token supplied, won't be able to download lekko"⟩, []) :=
  ⟨by decide, rfl⟩

/-- **C6 (amended).** The github_token input is required unconditionally:
whenever the version input is non-empty and the github_token input is empty,
`runSetup` fails with the missing-credential configuration error before
performing any effect, regardless of the apikey input. -/
theorem githubToken_required_unconditionally (inp : Inputs) (w : World)
    (hv : inp.version ≠ []) (hg : inp.githubToken = []) :
    runSetup inp w =
      (Res.err ⟨str "No github_token supplied, won't be able to download lekko"⟩, []) := by
  unfold runSetup
  rw [if_neg hv, if_pos hg]

/-- Witness for the amended C6 at a concrete input with a non-empty apikey. -/
theorem githubToken_required_unconditionally_witness :
    runSetup (Inputs.mk (str "2.0.0") [] (str "apikey123")) w0 =
      (Res.err ⟨str "No github_token supplied, won't be able to download lekko"⟩, []) :=
  githubToken_required_unconditionally (Inputs.mk (str "2.0.0") [] (str "apikey123")) w0
    (by decide) rfl

/-- **C7.** `run` never lets an exception escape: whenever the setup chain
throws, `run` catches the thrown value and marks the run failed — with the
value's message when it has the Error shape, and with the fixed message
"Internal error" otherwise — so the run terminates with an explicit failure
signal. -/
theorem run_catches_all (inp : Inputs) (w : World) (t : Thrown)
    (h : (runSetup inp w).1 = Res.thrown t) :
    run inp w = .failed (match isErrorThrown t with
      | some m => m
      | none => str "Internal error") := by
  unfold run
  rw [h]
  cases t <;> rfl

/-- A fixed world with an empty tool cache and a registry whose release-list
response is the empty list, used to instantiate theorems at concrete inputs. -/
def w2 : World where
  host := ⟨str "x64", str "linux"⟩
  cacheFind := fun _ _ _ => []
  tokenExchange := fun _ => ⟨true, [], some (str "tok")⟩
  reg := ⟨fun _ => [], fun _ => ⟨[]⟩⟩
  downloadTool := fun _ => str "/tmp/dl"
  extractTar := fun _ => str "/tmp/ex"
  cacheDirFn := fun _ _ _ _ => str "/cache/dir"
  which := fun _ => str "/cache/dir/bin/lekko"

/-- On a supported host with version "latest" and an empty release-list
response, `getDownloadURL` evaluates `releases[0].assets` on `undefined` and
the runtime TypeError escapes. -/
theorem getDownloadURL_empty_latest (githubToken : Str) (host : Host) (reg : Registry)
    (archTok osTok : Str)
    (ha : resolveArchToken host.arch = Except.ok archTok)
    (hp : resolvePlatformToken host.platform = Except.ok osTok)
    (hr : reg.listReleases 1 = []) :
    getDownloadURL (str "latest") githubToken host reg =
      (Res.thrown (Thrown.errorShaped undefinedAssetsMsg),
       [Effect.registryList githubToken 1]) := by
  unfold getDownloadURL
  rw [ha]
  dsimp only
  rw [hp]
  dsimp only
  rw [if_pos rfl, hr]

/-- The two-argument variant behaves identically on an empty release-list
response for version "latest". -/
theorem getDownloadURL2_empty_latest (githubToken : Str) (host : Host) (reg : Registry)
    (archTok osTok : Str)
    (ha : resolveArchToken host.arch = Except.ok archTok)
    (hp : resolvePlatformToken host.platform = Except.ok osTok)
    (hr : reg.listReleases 1 = []) :
    getDownloadURL2 (str "latest") githubToken host reg =
      (Res.thrown (Thrown.errorShaped undefinedAssetsMsg),
       [Effect.registryList githubToken 1]) := by
  unfold getDownloadURL2
  rw [ha]
  dsimp only
  rw [hp]
  dsimp only
  rw [if_pos rfl, hr]

/-- Witness for C7: in `w2` (version "latest", empty release list) the setup
chain throws, and `run` reports the thrown TypeError's message as the
failure. -/
theorem run_catches_all_witness :
    run (Inputs.mk (str "latest") (str "T") []) w2 = .failed undefinedAssetsMsg :=
  run_catches_all (Inputs.mk (str "latest") (str "T") []) w2
    (.errorShaped undefinedAssetsMsg) rfl

/-- **C9.** With version "latest" on a supported host, when the release-list
response is empty `getDownloadURL` never returns the documented
asset-not-found error value: it accesses the first element of the empty list,
so the runtime TypeError escapes as a thrown exception, and composed through
the action the failure only surfaces via the top-level handler, which reports
the run failed with the runtime error's message. -/
theorem empty_release_list_throws (inp : Inputs) (w : World) (archTok osTok : Str)
    (ha : resolveArchToken w.host.arch = Except.ok archTok)
    (hp : resolvePlatformToken w.host.platform = Except.ok osTok)
    (hr : w.reg.listReleases 1 = [])
    (hv : inp.version = str "latest") (hg : inp.githubToken ≠ [])
    (hmiss : w.cacheFind (str "lekko") (str "latest") w.host.arch = []) :
    (∀ e fx, getDownloadURL (str "latest") inp.githubToken w.host w.reg ≠ (Res.err e, fx))
    ∧ getDownloadURL (str "latest") inp.githubToken w.host w.reg =
        (Res.thrown (Thrown.errorShaped undefinedAssetsMsg),
         [Effect.registryList inp.githubToken 1])
    ∧ run inp w = .failed undefinedAssetsMsg := by
  have h1 := getDownloadURL_empty_latest inp.githubToken w.host w.reg archTok osTok ha hp hr
  have h2 := getDownloadURL2_empty_latest inp.githubToken w.host w.reg archTok osTok ha hp hr
  refine ⟨?_, h1, ?_⟩
  · intro e fx hcontra
    rw [h1] at hcontra
    simp at hcontra
  · have hlek : getLekko2 inp.version inp.githubToken w =
        (Res.thrown (Thrown.errorShaped undefinedAssetsMsg),
         [Effect.registryList inp.githubToken 1],
         [str "Resolving the download URL for the current platform..."]) := by
      rw [hv]
      unfold getLekko2
      rw [hmiss]
      dsimp only
      rw [if_neg (by simp), h2]
    unfold run runSetup
    rw [if_neg (by rw [hv]; decide), if_neg hg, hlek]
    rfl

/-- Witness for C9 at the concrete world `w2`: the thrown TypeError and the
generic top-level failure on a Linux/x64 host with an empty release list. -/
theorem empty_release_list_throws_witness :
    getDownloadURL (str "latest") (str "T") w2.host w2.reg =
        (Res.thrown (Thrown.errorShaped undefinedAssetsMsg),
         [Effect.registryList (str "T") 1])
    ∧ run (Inputs.mk (str "latest") (str "T") []) w2 = .failed undefinedAssetsMsg :=
  ⟨(empty_release_list_throws (Inputs.mk (str "latest") (str "T") []) w2
      (str "x86_64") (str "Linux") rfl rfl rfl rfl (by decide) rfl).2.1,
   (empty_release_list_throws (Inputs.mk (str "latest") (str "T") []) w2
      (str "x86_64") (str "Linux") rfl rfl rfl rfl (by decide) rfl).2.2⟩

/-- **C8.** After a successful fetch returning install directory d, `runSetup`
adds d itself to the PATH when the platform is "win32" and d joined with
"bin" on every other OS, then resolves the executable named "lekko" on the
updated PATH; an empty resolution yields the error
"lekko was not found on PATH". -/
theorem path_install (inp : Inputs) (w : World) (d : Str) (fx : List Effect) (logs : List Str)
    (hv : inp.version ≠ []) (hg : inp.githubToken ≠ [])
    (hfetch : getLekko2 inp.version inp.githubToken w = (Res.ok d, fx, logs)) :
    ((w.host.platform = str "win32" → Effect.addPath d ∈ (runSetup inp w).2)
      ∧ (w.host.platform ≠ str "win32" →
          Effect.addPath (joinPath d (str "bin")) ∈ (runSetup inp w).2))
    ∧ (w.which (str "lekko") = [] →
        (runSetup inp w).1 = Res.err ⟨str "lekko was not found on PATH"⟩) := by
  unfold runSetup
  rw [if_neg hv, if_neg hg, hfetch]
  dsimp only
  by_cases hwin : w.host.platform = str "win32" <;>
    by_cases hwhich : w.which (str "lekko") = [] <;>
    simp [hwin, hwhich]

/-- Witness for C8: in `w1` on a Linux host, after the successful "latest"
fetch the bin subdirectory of the install dir is added to the PATH. -/
theorem path_install_witness :
    Effect.addPath (joinPath (str "/cache/dir") (str "bin")) ∈
      (runSetup (Inputs.mk (str "latest") (str "T") []) w1).2 :=
  (path_install (Inputs.mk (str "latest") (str "T") []) w1 (str "/cache/dir")
      (getLekko2 (str "latest") (str "T") w1).2.1
      (getLekko2 (str "latest") (str "T") w1).2.2
      (by decide) (by decide) rfl).1.2 (by decide)

/-- The character for a single decimal digit has the expected code. -/
theorem digitChar_toNat : ∀ m < 10, (Char.ofNat (48 + m)).toNat = 48 + m := by decide

/-- Every character `natRepr` emits is a decimal digit (code 48–57). -/
theorem natRepr_digits (n : Nat) : ∀ c ∈ natRepr n, 48 ≤ c.toNat ∧ c.toNat ≤ 57 := by
  induction n using Nat.strong_induction_on with
  | _ n ih =>
    intro c hc
    by_cases h : n < 10
    · unfold natRepr at hc
      rw [dif_pos h] at hc
      simp at hc
      subst hc
      rw [digitChar_toNat n h]
      omega
    · unfold natRepr at hc
      rw [dif_neg h] at hc
      rcases List.mem_append.mp hc with h1 | h2
      · exact ih (n / 10) (Nat.div_lt_self (by omega) (by omega)) c h1
      · simp at h2
        subst h2
        rw [digitChar_toNat (n % 10) (Nat.mod_lt _ (by omega))]
        omega

/-- `unrepr` inverts `natRepr`. -/
theorem unrepr_natRepr (n : Nat) : unrepr (natRepr n) = n := by
  induction n using Nat.strong_induction_on with
  | _ n ih =>
    by_cases h : n < 10
    · unfold natRepr
      rw [dif_pos h]
      unfold unrepr
      simp only [List.foldl_cons, List.foldl_nil]
      rw [digitChar_toNat n h]
      omega
    · unfold natRepr
      rw [dif_neg h]
      unfold unrepr
      rw [List.foldl_append]
      have hrec := ih (n / 10) (Nat.div_lt_self (by omega) (by omega))
      unfold unrepr at hrec
      simp only [List.foldl_cons, List.foldl_nil]
      rw [hrec, digitChar_toNat (n % 10) (Nat.mod_lt _ (by omega))]
      omega

/-- Decimal rendering is injective. -/
theorem natRepr_inj {a b : Nat} (h : natRepr a = natRepr b) : a = b := by
  have ha := unrepr_natRepr a
  rw [h, unrepr_natRepr b] at ha
  exact ha.symm

/-- A digit string followed by a colon is recoverable from a concatenation:
the colon cannot occur among the digits, so it marks the boundary. -/
theorem digit_colon_boundary (xs : Str) : ∀ ys us vs : Str,
    (∀ c ∈ xs, 48 ≤ c.toNat ∧ c.toNat ≤ 57) →
    (∀ c ∈ ys, 48 ≤ c.toNat ∧ c.toNat ≤ 57) →
    xs ++ ':' :: us = ys ++ ':' :: vs →
    xs = ys ∧ us = vs := by
  induction xs with
  | nil =>
    intro ys us vs _ hy h
    cases ys with
    | nil => simpa using h
    | cons y ys2 =>
      simp only [List.nil_append, List.cons_append, List.cons.injEq] at h
      have hc := hy y (by simp)
      rw [← h.1] at hc
      have h58 : Char.toNat ':' = 58 := rfl
      omega
  | cons x xs2 ih =>
    intro ys us vs hx hy h
    cases ys with
    | nil =>
      simp only [List.nil_append, List.cons_append, List.cons.injEq] at h
      have hc := hx x (by simp)
      rw [h.1] at hc
      have h58 : Char.toNat ':' = 58 := rfl
      omega
    | cons y ys2 =>
      simp only [List.cons_append, List.cons.injEq] at h
      obtain ⟨hxy, hrest⟩ := h
      obtain ⟨h1, h2⟩ := ih ys2 us vs (fun c hc => hx c (by simp [hc]))
        (fun c hc => hy c (by simp [hc])) hrest
      subst hxy
      exact ⟨by rw [h1], h2⟩

/-- The result component of `getDownloadURL2` does not depend on the token
(the token only authenticates the requests). -/
theorem getDownloadURL2_result_token_independent (version t1 t2 : Str) (host : Host)
    (reg : Registry) :
    (getDownloadURL2 version t1 host reg).1 = (getDownloadURL2 version t2 host reg).1 := by
  unfold getDownloadURL2
  split
  · rfl
  · split
    · rfl
    · by_cases hv : version = str "latest"
      · simp only [if_pos hv]
        split
        · rfl
        · split <;> rfl
      · simp only [if_neg hv]
        split <;> rfl

/-- On a cache miss with a successfully resolved URL, `getLekko2` runs the
download/extract/cache sequence and emits the full log transcript, including
the download line interpolating the token's length and first five
characters. -/
theorem getLekko2_miss_ok (version githubToken url : Str) (fx : List Effect) (w : World)
    (hmiss : w.cacheFind (str "lekko") version w.host.arch = [])
    (hd : getDownloadURL2 version githubToken w.host w.reg = (Res.ok url, fx)) :
    getLekko2 version githubToken w =
      (Res.ok (w.cacheDirFn (joinPath (w.extractTar (w.downloadTool url)) (str "lekko"))
          (str "lekko") version w.host.arch),
       fx ++ [Effect.download url githubToken, Effect.extract (w.downloadTool url),
         Effect.cacheWrite (joinPath (w.extractTar (w.downloadTool url)) (str "lekko"))
           (str "lekko") version w.host.arch],
       [str "Resolving the download URL for the current platform...",
        str "Downloading lekko version \"" ++ version ++ str "\" from " ++ url
          ++ str " using token of length " ++ natRepr githubToken.length ++ str ": "
          ++ githubToken.take 5,
        str "Successfully downloaded lekko version \"" ++ version ++ str "\" from " ++ url,
        str "Extracting lekko...",
        str "Successfully extracted lekko to " ++ w.extractTar (w.downloadTool url),
        str "Adding lekko to the cache...",
        str "Successfully cached lekko to " ++ w.cacheDirFn
          (joinPath (w.extractTar (w.downloadTool url)) (str "lekko"))
          (str "lekko") version w.host.arch]) := by
  unfold getLekko2
  rw [hmiss]
  dsimp only
  rw [if_neg (by simp), hd]

/-- **C10.** In the two-argument fetch variant, on a cache miss the download
log line includes the github token's length and its first five characters
(`slice(0, 5)`); consequently log output is not independent of the secret
credential: two runs in the same world that differ only in the token value
produce different log output whenever the tokens differ in length or in
their first five characters. -/
theorem token_leaks_into_logs (version t1 t2 url : Str) (fx1 : List Effect) (w : World)
    (hmiss : w.cacheFind (str "lekko") version w.host.arch = [])
    (hd1 : getDownloadURL2 version t1 w.host w.reg = (Res.ok url, fx1))
    (hdiff : t1.length ≠ t2.length ∨ t1.take 5 ≠ t2.take 5) :
    (∃ line ∈ (getLekko2 version t1 w).2.2,
        natRepr t1.length <:+: line ∧ t1.take 5 <:+: line)
    ∧ (getLekko2 version t1 w).2.2 ≠ (getLekko2 version t2 w).2.2 := by
  obtain ⟨res2, fx2, hd2⟩ :
      ∃ res2 fx2, getDownloadURL2 version t2 w.host w.reg = (res2, fx2) := ⟨_, _, rfl⟩
  have hres := getDownloadURL2_result_token_independent version t1 t2 w.host w.reg
  rw [hd1, hd2] at hres
  dsimp only at hres
  have hd2ok : getDownloadURL2 version t2 w.host w.reg = (Res.ok url, fx2) := by
    rw [hd2, ← hres]
  have hl1 := getLekko2_miss_ok version t1 url fx1 w hmiss hd1
  have hl2 := getLekko2_miss_ok version t2 url fx2 w hmiss hd2ok
  constructor
  · rw [hl1]
    refine ⟨str "Downloading lekko version \"" ++ version ++ str "\" from " ++ url
        ++ str " using token of length " ++ natRepr t1.length ++ str ": " ++ t1.take 5,
      by simp, ?_, ?_⟩
    · exact ⟨str "Downloading lekko version \"" ++ version ++ str "\" from " ++ url
        ++ str " using token of length ", str ": " ++ t1.take 5, by simp⟩
    · exact ⟨str "Downloading lekko version \"" ++ version ++ str "\" from " ++ url
        ++ str " using token of length " ++ natRepr t1.length ++ str ": ", [], by simp⟩
  · rw [hl1, hl2]
    intro hcontra
    have hline : str "Downloading lekko version \"" ++ version ++ str "\" from " ++ url
        ++ str " using token of length " ++ natRepr t1.length ++ str ": " ++ t1.take 5
      = str "Downloading lekko version \"" ++ version ++ str "\" from " ++ url
        ++ str " using token of length " ++ natRepr t2.length ++ str ": " ++ t2.take 5 := by
      injection hcontra with h1 hrest
      injection hrest with h2 hrest2
    have hline2 : natRepr t1.length ++ (':' :: ' ' :: t1.take 5)
        = natRepr t2.length ++ (':' :: ' ' :: t2.take 5) := by
      have h := hline
      simp only [List.append_assoc] at h
      replace h := List.append_cancel_left h
      replace h := List.append_cancel_left h
      replace h := List.append_cancel_left h
      replace h := List.append_cancel_left h
      replace h := List.append_cancel_left h
      simpa [show str ": " = ':' :: [' '] from rfl] using h
    obtain ⟨hnat, htail⟩ := digit_colon_boundary (natRepr t1.length) (natRepr t2.length)
      (' ' :: t1.take 5) (' ' :: t2.take 5) (natRepr_digits _) (natRepr_digits _) hline2
    have hlen : t1.length = t2.length := natRepr_inj hnat
    have htake : t1.take 5 = t2.take 5 := by injection htail
    rcases hdiff with h | h
    · exact h hlen
    · exact h htake

/-- Witness for C10: in `w1`, the one-character token "T" and the sixteen-
character token "secret-token-xyz" produce different log transcripts, and the
download line embeds the length and prefix of the token. -/
theorem token_leaks_into_logs_witness :
    (∃ line ∈ (getLekko2 (str "latest") (str "T") w1).2.2,
        natRepr (str "T").length <:+: line ∧ (str "T").take 5 <:+: line)
    ∧ (getLekko2 (str "latest") (str "T") w1).2.2
        ≠ (getLekko2 (str "latest") (str "secret-token-xyz") w1).2.2 :=
  token_leaks_into_logs (str "latest") (str "T") (str "secret-token-xyz")
    (str "https://api.github.com/asset/1") [Effect.registryList (str "T") 1] w1
    rfl rfl (by decide)
